import Mathlib

/-!
Verification development for the SurveiLens edge video pipeline.

The C++ core (namespace `edge`: `inference_engine.cpp`, `frame_buffer.hpp`,
`event_publisher.cpp`, `rtsp_streamer.cpp`) and the `video-core` post-processor
(`postprocess.cpp`) are shallowly embedded here.  Machine floats are idealized
as rationals (`ℚ`); the embedded definitions follow the source statement by
statement and keep source names where Lean permits.
-/

/-- Maximum of a list of rationals, taken with base 0 (the start value of the
source's running-max folds). -/
def listMax (l : List ℚ) : ℚ :=
  l.foldr max 0

namespace Edge

/-- `enum class DangerLevel { LOW, MEDIUM, HIGH }` from `frame_types.hpp`. -/
inductive DangerLevel
  | LOW
  | MEDIUM
  | HIGH
deriving DecidableEq, Repr

/-- Numeric severity used to phrase "maximum severity" (HIGH > MEDIUM > LOW). -/
def DangerLevel.sev : DangerLevel → Nat
  | .LOW => 0
  | .MEDIUM => 1
  | .HIGH => 2

/-- Join of two danger levels under the severity order. -/
def maxLevel (a b : DangerLevel) : DangerLevel :=
  if a.sev < b.sev then b else a

/-- `struct Detection` from `frame_types.hpp`; the `cv::Rect` box is kept as
four rationals (the float→int cast of the corners is not modelled; no claim
depends on it). -/
structure Detection where
  label : String
  confidence : ℚ
  bx : ℚ
  by_ : ℚ
  bw : ℚ
  bh : ℚ
  level : DangerLevel
deriving DecidableEq, Repr

/-- A decoded BGR image: pixel data plus its width/height (`cv::Mat`). -/
structure Frame where
  cols : Nat
  rows : Nat
  data : List ℚ
deriving DecidableEq, Repr

/-- `cv::Mat::empty()`. -/
def Frame.isEmpty (f : Frame) : Bool :=
  f.data.isEmpty

/-- `struct FrameResult` from `frame_types.hpp`. -/
structure FrameResult where
  frame : Frame
  dets : List Detection
  frame_level : DangerLevel
  timestamp_sec : ℚ
deriving DecidableEq, Repr

/-- ASCII lowercasing of one character, as `std::tolower` in the C locale
(`inference_engine.cpp`, `InferenceEngine::canonical`). -/
def lowerChar (c : Char) : Char :=
  if 65 ≤ c.toNat ∧ c.toNat ≤ 90 then Char.ofNat (c.toNat + 32) else c

/-- `InferenceEngine::canonical`: lowercase every character of the label. -/
def canonical (s : String) : String :=
  String.mk (s.data.map lowerChar)

/-- Contents of `high_labels_` set in the `InferenceEngine` constructor. -/
def high_labels : List String :=
  ["knife", "gun", "pistol", "rifle", "revolver", "firearm"]

/-- Contents of `medium_labels_` set in the `InferenceEngine` constructor. -/
def medium_labels : List String :=
  ["scissors"]

/-- `InferenceEngine::level_for_label`. -/
def level_for_label (label : String) : DangerLevel :=
  let c := canonical label
  if c ∈ high_labels then DangerLevel.HIGH
  else if c ∈ medium_labels then DangerLevel.MEDIUM
  else DangerLevel.LOW

/-- The frame-level loop at the end of `InferenceEngine::run_opencv` /
`run_ort`: starting from `LOW`, break to `HIGH` on the first HIGH detection,
and record `MEDIUM` when a MEDIUM detection is seen. -/
def frameLevelAux : List Detection → DangerLevel → DangerLevel
  | [], acc => acc
  | d :: rest, acc =>
    if d.level = DangerLevel.HIGH then DangerLevel.HIGH
    else if d.level = DangerLevel.MEDIUM then frameLevelAux rest DangerLevel.MEDIUM
    else frameLevelAux rest acc

/-- `output.frame_level` as computed by the engine from its detections. -/
def computeFrameLevel (dets : List Detection) : DangerLevel :=
  frameLevelAux dets DangerLevel.LOW

/-- The built-in 80-class COCO-style table `class_names_` initialised in the
`InferenceEngine` constructor. -/
def coco80 : List String :=
  ["person", "bicycle", "car", "motorcycle", "airplane", "bus", "train", "truck",
   "boat", "traffic light", "fire hydrant", "stop sign", "parking meter", "bench",
   "bird", "cat", "dog", "horse", "sheep", "cow",
   "elephant", "bear", "zebra", "giraffe", "backpack", "umbrella",
   "handbag", "tie", "suitcase", "frisbee", "skis", "snowboard",
   "sports ball", "kite", "baseball bat", "baseball glove", "skateboard",
   "surfboard", "tennis racket", "bottle", "wine glass", "cup", "fork",
   "knife", "spoon", "bowl", "banana", "apple", "sandwich", "orange",
   "broccoli", "carrot", "hot dog", "pizza", "donut", "cake", "chair",
   "couch", "potted plant", "bed", "dining table", "toilet", "tv", "laptop",
   "mouse", "remote", "keyboard", "cell phone", "microwave", "oven", "toaster",
   "sink", "refrigerator", "book", "clock", "vase", "scissors", "teddy bear",
   "hair drier", "toothbrush"]

/-- `InferenceEngine::load_class_names`: every non-empty line of the file is
`push_back`ed onto the current `class_names_` table. -/
def load_class_names (class_names : List String) (lines : List String) : List String :=
  class_names ++ lines.filter (fun l => !l.isEmpty)

/-- The `class_names_` table after construction: starts as `coco80`; when a
class-names file is supplied (`!class_names_path.empty()`) its lines are fed
to `load_class_names`. -/
def constructClassNames (fileLines : Option (List String)) : List String :=
  match fileLines with
  | none => coco80
  | some lines => load_class_names coco80 lines

/-- Label lookup for a best class index (`run_opencv` / `run_ort`):
`class_names_[best_cls]` when in range, else a `cls_<n>` placeholder. -/
def labelForClass (class_names : List String) (best_cls : Int) : String :=
  if h : 0 ≤ best_cls ∧ best_cls.toNat < class_names.length then
    class_names.get ⟨best_cls.toNat, h.2⟩
  else
    "cls_" ++ toString best_cls

/-- Raw model output: its (non-batch trailing) shape and flat float data, as
read off the `cv::Mat`/`Ort::Value` in `run_opencv` / `run_ort`. -/
structure Tensor where
  shape : List Nat
  data : List ℚ
deriving DecidableEq, Repr

/-- Layout detection of `run_opencv` / `run_ort`: a 3-D output uses
`shape[1]`/`shape[2]` (swapped, channel-first, when `shape[2] > shape[1]`),
a 2-D output uses `shape[0]`/`shape[1]`; anything else makes `run` echo its
input.  Returns `(rows, dims, channel_first)`. -/
def decodeShape : List Nat → Option (Nat × Nat × Bool)
  | [a, b] => some (a, b, false)
  | [_, a, b] => if b > a then some (b, a, true) else some (a, b, false)
  | _ => none

/-- The `item` accessor of the decode loops: element `idx` of candidate `i`
under the detected layout (out-of-range flat reads default to 0; in the C++
they would be out-of-bounds pointer reads). -/
def itemAt (data : List ℚ) (rows dims : Nat) (channelFirst : Bool) (i idx : Nat) : ℚ :=
  if channelFirst then data.getD (idx * rows + i) 0 else data.getD (i * dims + idx) 0

/-- `classes = std::max(1, dims - 5)` (Nat subtraction agrees with the C++
`int` computation for `dims ≥ 0`). -/
def classesOf (dims : Nat) : Nat :=
  max 1 (dims - 5)

/-- `objectness = (dims >= classes + 5) ? item(4) : 1.0f`. -/
def objectnessOf (itemf : Nat → ℚ) (dims : Nat) : ℚ :=
  if classesOf dims + 5 ≤ dims then itemf 4 else 1

/-- `class_start = (dims >= classes + 5) ? 5 : 4`. -/
def classStartOf (dims : Nat) : Nat :=
  if classesOf dims + 5 ≤ dims then 5 else 4

/-- The class indices `c` scanned by `for (c = 0; c < classes && class_start + c < dims; ++c)`. -/
def classIdxs (dims : Nat) : List Nat :=
  (List.range (classesOf dims)).filter (fun c => classStartOf dims + c < dims)

/-- The class scores scanned by the best-class loop of one candidate. -/
def classScores (itemf : Nat → ℚ) (dims : Nat) : List ℚ :=
  (classIdxs dims).map (fun c => itemf (classStartOf dims + c))

/-- The best-class loop body: track `(best_cls, best_score)`, updating on a
strictly larger `conf = objectness * cls_score`. -/
def bestAux (itemf : Nat → ℚ) (objectness : ℚ) (class_start : Nat) :
    List Nat → Int × ℚ → Int × ℚ
  | [], acc => acc
  | c :: rest, (bc, bs) =>
    let conf := objectness * itemf (class_start + c)
    if bs < conf then bestAux itemf objectness class_start rest (Int.ofNat c, conf)
    else bestAux itemf objectness class_start rest (bc, bs)

/-- One candidate row of the decode loop shared by `run_opencv` and `run_ort`:
read the box, find the best class, drop the candidate when
`best_score < conf_threshold_`, otherwise build the `Detection`. -/
def decodeRow (itemf : Nat → ℚ) (dims : Nat) (conf_threshold : ℚ)
    (class_names : List String) (scale_x scale_y : ℚ) : Option Detection :=
  let cx := itemf 0
  let cy := itemf 1
  let w := itemf 2
  let h := itemf 3
  let objectness := objectnessOf itemf dims
  let class_start := classStartOf dims
  let res := bestAux itemf objectness class_start (classIdxs dims) (-1, 0)
  let best_cls := res.1
  let best_score := res.2
  if best_score < conf_threshold then none
  else
    let x0 := (cx - w / 2) * scale_x
    let y0 := (cy - h / 2) * scale_y
    let x1 := (cx + w / 2) * scale_x
    let y1 := (cy + h / 2) * scale_y
    let label := labelForClass class_names best_cls
    some ⟨label, best_score, x0, y0, x1 - x0, y1 - y0, level_for_label label⟩

/-- The engine state relevant to the embedded behaviour (`InferenceEngine`
fields `ready_`, `use_ort_`, `input_size_`, `conf_threshold_`, `class_names_`). -/
structure Engine where
  ready : Bool
  use_ort : Bool
  input_size : Nat
  conf_threshold : ℚ
  class_names : List String
deriving DecidableEq, Repr

/-- The `InferenceEngine` constructor's backend selection (the
`USE_ONNXRUNTIME` build).  `use_onnxruntime` is the constructor argument;
`ort_load_ok` / `cv_load_ok` say whether each backend's model load would
succeed (each load is wrapped in try/catch, so construction never throws):
a failed ORT load clears `use_ort_` and falls through to the OpenCV branch;
the OpenCV branch runs whenever `use_ort_` is false and alone decides
`ready_` there. -/
def construct (use_onnxruntime ort_load_ok cv_load_ok : Bool)
    (input_size : Nat) (conf_threshold : ℚ) (fileLines : Option (List String)) : Engine :=
  let names := constructClassNames fileLines
  if use_onnxruntime then
    if ort_load_ok then ⟨true, true, input_size, conf_threshold, names⟩
    else if cv_load_ok then ⟨true, false, input_size, conf_threshold, names⟩
    else ⟨false, false, input_size, conf_threshold, names⟩
  else
    if cv_load_ok then ⟨true, false, input_size, conf_threshold, names⟩
    else ⟨false, false, input_size, conf_threshold, names⟩

/-- The detection list produced by the decode loop over all candidate rows. -/
def decodeDets (e : Engine) (pred : Tensor) (frame_w frame_h : Nat) : List Detection :=
  match decodeShape pred.shape with
  | none => []
  | some (rows, dims, cf) =>
    let scale_x : ℚ := (frame_w : ℚ) / (e.input_size : ℚ)
    let scale_y : ℚ := (frame_h : ℚ) / (e.input_size : ℚ)
    (List.range rows).filterMap fun i =>
      decodeRow (itemAt pred.data rows dims cf i) dims e.conf_threshold e.class_names scale_x scale_y

/-- `InferenceEngine::run`, with the model's raw output tensor supplied as an
oracle (`net_.forward()` / `session_->Run`): echo the input when the engine is
not ready or the frame is empty (or the output shape is unusable), otherwise
decode detections and derive `frame_level`.  Overlay drawing only decorates
pixels and is not modelled. -/
def runEngine (e : Engine) (pred : Tensor) (input : FrameResult) : FrameResult :=
  if e.ready = false ∨ input.frame.isEmpty then input
  else
    match decodeShape pred.shape with
    | none => input
    | some _ =>
      let dets := decodeDets e pred input.frame.cols input.frame.rows
      { input with dets := dets, frame_level := computeFrameLevel dets }

/-- Zero-padded three-digit rendering of a number below 1000. -/
def pad3 (n : Nat) : String :=
  (if n < 10 then "00" else if n < 100 then "0" else "") ++ toString n

/-- `std::fixed << std::setprecision(3)` rendering of the timestamp, with the
double idealized as a rational (rounding to nearest, half away from zero for
positives; pipeline timestamps are nonnegative monotonic-clock seconds). -/
def fixed3 (q : ℚ) : String :=
  let m : Int := round (q * 1000)
  (if m < 0 then "-" else "") ++ toString (m.natAbs / 1000) ++ "." ++ pad3 (m.natAbs % 1000)

/-- The label loop of `EventPublisher::publish`: emit each HIGH-level
detection's label, quoted, comma-separated via the `first` flag. -/
def labelsLoopAux : List Detection → Bool → String → String
  | [], _, acc => acc
  | d :: rest, first, acc =>
    if d.level ≠ DangerLevel.HIGH then labelsLoopAux rest first acc
    else labelsLoopAux rest false (acc ++ (if first then "" else ",") ++ "\"" ++ d.label ++ "\"")

/-- `EventPublisher::publish` for one `FrameResult`: `none` (no write at all)
unless `frame_level == HIGH`, otherwise the single JSONL line appended to the
alerts file.  (Directory creation and the swallowed open-failure path touch no
content and are not modelled.) -/
def publishLine (r : FrameResult) : Option String :=
  if r.frame_level ≠ DangerLevel.HIGH then none
  else some ("\x7b\"type\":\"high_danger_alert\",\"timestamp\":" ++ fixed3 r.timestamp_sec
    ++ ",\"labels\":[" ++ labelsLoopAux r.dets true "" ++ "]\x7d\n")

/-- The lines appended by feeding a sequence of results to the publisher. -/
def publishAll (rs : List FrameResult) : List String :=
  rs.filterMap publishLine

/-- Comma-separated join of a list of strings. -/
def joinComma : List String → String
  | [] => ""
  | [x] => x
  | x :: y :: rest => x ++ "," ++ joinComma (y :: rest)

/-- The quoted labels of the HIGH-level detections of a frame, in order. -/
def highLabelsOf (dets : List Detection) : List String :=
  (dets.filter (fun d => d.level = DangerLevel.HIGH)).map (fun d => "\"" ++ d.label ++ "\"")

/-- The spec-side record line: `type`, fixed-3 timestamp, and exactly the
labels of the HIGH-level detections, in order. -/
def specAlertLine (r : FrameResult) : String :=
  "\x7b\"type\":\"high_danger_alert\",\"timestamp\":" ++ fixed3 r.timestamp_sec
    ++ ",\"labels\":[" ++ joinComma (highLabelsOf r.dets) ++ "]\x7d\n"

/-- State of `FrameBuffer<T>` (`frame_buffer.hpp`): the FIFO contents (front
at the head) and the `stopped_` flag; the capacity `max_items_` is passed
alongside. -/
structure BufferState (T : Type) where
  queue : List T
  stopped : Bool
deriving DecidableEq, Repr

/-- The freshly constructed buffer. -/
def initBuffer (T : Type) : BufferState T :=
  ⟨[], false⟩

/-- `FrameBuffer::push`: the caller waits on `queue_.size() < max_items_`
(note: the predicate does not consult `stopped_`); when the predicate holds
the item is enqueued at the back.  `none` means the wait predicate is false
at this state, i.e. the caller remains blocked and the operation does not
complete. -/
def pushStep {T : Type} (cap : Nat) (s : BufferState T) (x : T) : Option (BufferState T) :=
  if s.queue.length < cap then some ⟨s.queue ++ [x], s.stopped⟩ else none

/-- `FrameBuffer::pop`: the caller waits on `!queue_.empty() || stopped_`;
once past the wait, return `false` (here `none` for the item) when stopped
and drained, otherwise dequeue the front with `ok = true`.  The outer `none`
means the wait predicate is false and the caller remains blocked. -/
def popStep {T : Type} (s : BufferState T) : Option (BufferState T × Option T) :=
  match s.queue, s.stopped with
  | [], false => none
  | [], true => some (s, none)
  | x :: rest, st => some (⟨rest, st⟩, some x)

/-- `FrameBuffer::stop`: set `stopped_` (and wake all waiters). -/
def stopStep {T : Type} (s : BufferState T) : BufferState T :=
  ⟨s.queue, true⟩

/-- A complete (non-blocking) buffer operation attempt. -/
inductive BufOp (T : Type)
  | push (x : T)
  | pop
  | halt
deriving DecidableEq, Repr

/-- Buffer plus the log of completed pushes and completed `ok = true` pops. -/
structure BufSys (T : Type) where
  buf : BufferState T
  pushedLog : List T
  poppedLog : List T
deriving DecidableEq, Repr

/-- Run one operation attempt: a blocked `push`/`pop` (wait predicate false)
does not complete and leaves the state unchanged; a completed push/pop is
logged. -/
def runBufOp {T : Type} (cap : Nat) (s : BufSys T) : BufOp T → BufSys T
  | .push x =>
    match pushStep cap s.buf x with
    | some b => ⟨b, s.pushedLog ++ [x], s.poppedLog⟩
    | none => s
  | .pop =>
    match popStep s.buf with
    | some (b, some x) => ⟨b, s.pushedLog, s.poppedLog ++ [x]⟩
    | some (_, none) => s
    | none => s
  | .halt => ⟨stopStep s.buf, s.pushedLog, s.poppedLog⟩

/-- Run a sequence of operation attempts from the initial system state. -/
def runBufOps {T : Type} (cap : Nat) (s : BufSys T) (ops : List (BufOp T)) : BufSys T :=
  ops.foldl (runBufOp cap) s

/-- The initial system: fresh buffer, empty logs. -/
def initSys (T : Type) : BufSys T :=
  ⟨initBuffer T, [], []⟩

/-- Pop repeatedly (up to `fuel` times), collecting the delivered items and
the final state; stops early on a blocked pop or an `ok = false` pop. -/
def drainAll {T : Type} : Nat → BufferState T → List T × BufferState T
  | 0, s => ([], s)
  | fuel + 1, s =>
    match popStep s with
    | some (b, some x) =>
      let r := drainAll fuel b
      (x :: r.1, r.2)
    | _ => ([], s)

end Edge

namespace VideoCore

/-- `FrameEvent::Obj` (also the shape of `Act` and `Aud`): a named, scored
signal (`postprocess.hpp`). -/
structure Sig where
  name : String
  conf : ℚ
deriving DecidableEq, Repr

/-- `FrameEvent` fields involved in risk fusion (`postprocess.hpp`). -/
structure FrameEvent where
  site_id : String
  camera_id : String
  frame_id : Nat
  objects : List Sig
  actions : List Sig
  zones : List String
  audio_flags : List Sig
  risk_local : ℚ
  level_local : String
deriving DecidableEq, Repr

/-- `PostProcessor::Impl::fuse_risk` (`postprocess.cpp`): start from 0, max in
each object's `conf * 0.7`, each action's `conf * 0.8`, `0.75 * conf` of each
`raised_voice` audio flag, floor at 0.5 when the zone list is non-empty, and
clamp with `min(r, 1)`.  Float constants are idealized as rationals. -/
def fuse_risk (objs acts : List Sig) (zones : List String) (aflags : List Sig) : ℚ :=
  let r0 : ℚ := 0
  let r1 := objs.foldl (fun r o => max r (o.conf * (7/10))) r0
  let r2 := acts.foldl (fun r a => max r (a.conf * (4/5))) r1
  let r3 := aflags.foldl (fun r f => if f.name = "raised_voice" then max r ((3/4) * f.conf) else r) r2
  let r4 := if zones.isEmpty then r3 else max r3 (1/2)
  min r4 1

/-- `PostProcessor::process_frame`: builds a `FrameEvent` whose signal lists
are the default-empty vectors (the source fills none of them before fusing),
copies the policy zones, fuses the risk, and discretizes `level_local` with
the threshold chain `risk_high` / `risk_med` / `0.05`. -/
def process_frame (site_id camera_id : String) (policyZones : List String)
    (frame_id : Nat) (risk_med risk_high : ℚ) : FrameEvent :=
  let objects : List Sig := []
  let actions : List Sig := []
  let audio_flags : List Sig := []
  let zones := policyZones
  let risk := fuse_risk objects actions zones audio_flags
  let level :=
    if risk_high ≤ risk then "high"
    else if risk_med ≤ risk then "medium"
    else if (1/20 : ℚ) ≤ risk then "low"
    else "none"
  ⟨site_id, camera_id, frame_id, objects, actions, zones, audio_flags, risk, level⟩

/-- The weighted per-signal contributions named by the spec: objects × 0.7,
actions × 0.8, `raised_voice` audio × 0.75, and the 0.5 zone floor. -/
def contribList (objs acts : List Sig) (zones : List String) (aflags : List Sig) : List ℚ :=
  objs.map (fun o => o.conf * (7/10))
    ++ acts.map (fun a => a.conf * (4/5))
    ++ (aflags.filter (fun f => f.name = "raised_voice")).map (fun f => (3/4) * f.conf)
    ++ (if zones.isEmpty then [] else [(1/2 : ℚ)])

end VideoCore

open Edge VideoCore

lemma frameLevelAux_char (dets : List Detection) : ∀ acc : DangerLevel,
    frameLevelAux dets acc =
      if dets.any (fun d => d.level == DangerLevel.HIGH) then DangerLevel.HIGH
      else if dets.any (fun d => d.level == DangerLevel.MEDIUM) then DangerLevel.MEDIUM
      else acc := by
  induction dets with
  | nil => intro acc; simp [frameLevelAux]
  | cons d rest ih =>
    intro acc
    by_cases hH : d.level = DangerLevel.HIGH
    · simp [frameLevelAux, hH]
    · by_cases hM : d.level = DangerLevel.MEDIUM
      · simp [frameLevelAux, hH, hM, ih]
      · simp [frameLevelAux, hH, hM, ih]

lemma maxLevel_low (x : DangerLevel) : maxLevel DangerLevel.LOW x = x := by
  cases x <;> decide

lemma maxLevel_med (x : DangerLevel) :
    maxLevel DangerLevel.MEDIUM x = if x = DangerLevel.HIGH then DangerLevel.HIGH
      else DangerLevel.MEDIUM := by
  cases x <;> decide

lemma maxLevel_high (x : DangerLevel) : maxLevel DangerLevel.HIGH x = DangerLevel.HIGH := by
  cases x <;> decide

lemma foldr_maxLevel_char (ls : List DangerLevel) :
    ls.foldr maxLevel DangerLevel.LOW =
      if ls.any (· == DangerLevel.HIGH) then DangerLevel.HIGH
      else if ls.any (· == DangerLevel.MEDIUM) then DangerLevel.MEDIUM
      else DangerLevel.LOW := by
  induction ls with
  | nil => simp
  | cons l rest ih =>
    cases l
    · simpa [maxLevel_low] using ih
    · rw [List.foldr_cons, ih]
      by_cases hH : rest.any (· == DangerLevel.HIGH)
      · simp [hH, maxLevel_med]
      · by_cases hM : rest.any (· == DangerLevel.MEDIUM) <;> simp [hH, hM, maxLevel_med]
    · simp [maxLevel_high]

lemma computeFrameLevel_eq_foldr (dets : List Detection) :
    computeFrameLevel dets = (dets.map Detection.level).foldr maxLevel DangerLevel.LOW := by
  rw [computeFrameLevel, frameLevelAux_char, foldr_maxLevel_char]
  simp [List.any_map, Function.comp]

/-- C1: every detection's danger level comes from a lowercased lookup of its
label (HIGH set, then MEDIUM set, else LOW; matching is case-insensitive),
and the engine's `frame_level` is the maximum severity of its detections,
with the empty list giving LOW. -/
theorem C1_danger_level_derivation :
    (∀ lab, canonical lab ∈ high_labels → level_for_label lab = DangerLevel.HIGH)
    ∧ (∀ lab, canonical lab ∉ high_labels → canonical lab ∈ medium_labels →
        level_for_label lab = DangerLevel.MEDIUM)
    ∧ (∀ lab, canonical lab ∉ high_labels → canonical lab ∉ medium_labels →
        level_for_label lab = DangerLevel.LOW)
    ∧ (∀ lab lab', canonical lab = canonical lab' →
        level_for_label lab = level_for_label lab')
    ∧ (∀ itemf dims thr names sx sy (d : Detection),
        decodeRow itemf dims thr names sx sy = some d → d.level = level_for_label d.label)
    ∧ (∀ dets, computeFrameLevel dets = (dets.map Detection.level).foldr maxLevel DangerLevel.LOW)
    ∧ computeFrameLevel [] = DangerLevel.LOW := by
  refine ⟨?_, ?_, ?_, ?_, ?_, computeFrameLevel_eq_foldr, rfl⟩
  · intro lab h; simp [level_for_label, h]
  · intro lab h1 h2; simp [level_for_label, h1, h2]
  · intro lab h1 h2; simp [level_for_label, h1, h2]
  · intro lab lab' h; simp [level_for_label, h]
  · intro itemf dims thr names sx sy d h
    unfold decodeRow at h
    dsimp only at h
    split at h
    · exact Option.noConfusion h
    · simp only [Option.some.injEq] at h
      subst h
      rfl

/-- Witness for C1 at the spec's own examples: `"KNIFE"` is HIGH
(case-insensitive), `"Scissors"` is MEDIUM, `"person"` is LOW, and the
frame level of an empty detection list is LOW. -/
theorem C1_danger_level_derivation_witness :
    level_for_label "KNIFE" = DangerLevel.HIGH
    ∧ level_for_label "Scissors" = DangerLevel.MEDIUM
    ∧ level_for_label "person" = DangerLevel.LOW
    ∧ computeFrameLevel [] = DangerLevel.LOW :=
  ⟨C1_danger_level_derivation.1 "KNIFE" (by decide),
   C1_danger_level_derivation.2.1 "Scissors" (by decide) (by decide),
   C1_danger_level_derivation.2.2.1 "person" (by decide) (by decide),
   C1_danger_level_derivation.2.2.2.2.2.2⟩

lemma listMax_nonneg (l : List ℚ) : 0 ≤ listMax l := by
  induction l with
  | nil => simp [listMax]
  | cons x l ih => exact le_max_of_le_right ih

lemma listMax_cons (x : ℚ) (l : List ℚ) : listMax (x :: l) = max x (listMax l) := rfl

lemma foldl_max_eq (l : List ℚ) : ∀ a : ℚ, 0 ≤ a → List.foldl max a l = max a (listMax l) := by
  induction l with
  | nil => intro a ha; simp [listMax, max_eq_left ha]
  | cons x l ih =>
    intro a ha
    rw [List.foldl_cons, ih (max a x) (le_trans ha (le_max_left a x)), listMax_cons, max_assoc]

lemma listMax_map_mul (k : ℚ) (hk : 0 ≤ k) (l : List ℚ) :
    listMax (l.map (fun x => k * x)) = k * listMax l := by
  induction l with
  | nil => simp [listMax]
  | cons x l ih =>
    rw [List.map_cons, listMax_cons, listMax_cons, ih, mul_max_of_nonneg _ _ hk]

lemma bestAux_snd (itemf : Nat → ℚ) (obj : ℚ) (start : Nat) :
    ∀ (cs : List Nat) (bc : Int) (bs : ℚ),
      (bestAux itemf obj start cs (bc, bs)).2 =
        List.foldl max bs (cs.map (fun c => obj * itemf (start + c))) := by
  intro cs
  induction cs with
  | nil => intro bc bs; rfl
  | cons c rest ih =>
    intro bc bs
    by_cases hlt : bs < obj * itemf (start + c)
    · rw [bestAux, if_pos hlt, ih, List.map_cons, List.foldl_cons,
        max_eq_right (le_of_lt hlt)]
    · rw [bestAux, if_neg hlt, ih, List.map_cons, List.foldl_cons,
        max_eq_left (not_lt.mp hlt)]

lemma best_score_eq (itemf : Nat → ℚ) (dims : Nat)
    (hobj : 0 ≤ objectnessOf itemf dims) :
    (bestAux itemf (objectnessOf itemf dims) (classStartOf dims) (classIdxs dims) (-1, 0)).2 =
      objectnessOf itemf dims * listMax (classScores itemf dims) := by
  rw [bestAux_snd, foldl_max_eq _ 0 le_rfl, max_eq_right (listMax_nonneg _)]
  have hmaps : (classIdxs dims).map (fun c => objectnessOf itemf dims * itemf (classStartOf dims + c))
      = (classScores itemf dims).map (fun x => objectnessOf itemf dims * x) := by
    rw [classScores, List.map_map]
    rfl
  rw [hmaps, listMax_map_mul _ hobj]

/-- C7: candidate decoding uses `classes = max(1, dims - 5)`; an explicit
objectness at index 4 with class scores from index 5 exactly when
`dims ≥ classes + 5`, else objectness 1 with class scores from index 4; a
candidate survives iff `objectness * best_class_score ≥ conf_threshold`
(the best class score being the running max, with base 0, of the scanned
class scores), and the surviving detection's confidence is that product.
Requires a nonnegative objectness (class outputs are scores). -/
theorem C7_candidate_decoding (itemf : Nat → ℚ) (dims : Nat) (thr : ℚ)
    (names : List String) (sx sy : ℚ)
    (hobj : 0 ≤ objectnessOf itemf dims) :
    classesOf dims = max 1 (dims - 5)
    ∧ (classesOf dims + 5 ≤ dims → objectnessOf itemf dims = itemf 4 ∧ classStartOf dims = 5)
    ∧ (dims < classesOf dims + 5 → objectnessOf itemf dims = 1 ∧ classStartOf dims = 4)
    ∧ ((decodeRow itemf dims thr names sx sy).isSome = true ↔
        thr ≤ objectnessOf itemf dims * listMax (classScores itemf dims))
    ∧ (∀ d, decodeRow itemf dims thr names sx sy = some d →
        d.confidence = objectnessOf itemf dims * listMax (classScores itemf dims)) := by
  refine ⟨rfl, ?_, ?_, ?_, ?_⟩
  · intro h; exact ⟨by rw [objectnessOf, if_pos h], by rw [classStartOf, if_pos h]⟩
  · intro h
    have h' : ¬ (classesOf dims + 5 ≤ dims) := not_le.mpr h
    exact ⟨by rw [objectnessOf, if_neg h'], by rw [classStartOf, if_neg h']⟩
  · unfold decodeRow
    dsimp only
    rw [best_score_eq itemf dims hobj]
    split
    · next hlt => simp [not_le.mpr hlt]
    · next hge => simp [not_lt.mp hge]
  · intro d h
    unfold decodeRow at h
    dsimp only at h
    rw [best_score_eq itemf dims hobj] at h
    split at h
    · exact Option.noConfusion h
    · simp only [Option.some.injEq] at h
      subst h
      rfl

/-- Witness for C7: a 6-wide candidate (objectness 1 at index 4, one class
score 9/10 at index 5) against threshold 1/2. -/
theorem C7_candidate_decoding_witness :
    0 ≤ objectnessOf (fun i => [0, 0, 0, 0, 1, mkRat 9 10].getD i 0) 6
    ∧ ((decodeRow (fun i => [0, 0, 0, 0, 1, mkRat 9 10].getD i 0) 6 (mkRat 1 2) ["knife"] 1 1).isSome = true ↔
        mkRat 1 2 ≤ objectnessOf (fun i => [0, 0, 0, 0, 1, mkRat 9 10].getD i 0) 6 *
          listMax (classScores (fun i => [0, 0, 0, 0, 1, mkRat 9 10].getD i 0) 6)) :=
  ⟨by decide,
   (C7_candidate_decoding (fun i => [0, 0, 0, 0, 1, mkRat 9 10].getD i 0) 6 (mkRat 1 2)
     ["knife"] 1 1 (by decide)).2.2.2.1⟩

/-- C8 counterexample: with a supplied class-name file whose first line is
`"weapon"`, lookup of class index 0 still resolves to the built-in
`"person"`, not to the file's first label — the file does not replace the
built-in table. -/
theorem C8_counterexample_append_not_replace :
    labelForClass (constructClassNames (some ["weapon"])) 0 = "person"
    ∧ ¬ labelForClass (constructClassNames (some ["weapon"])) 0 = "weapon" := by
  decide

lemma labelForClass_ofNat (names : List String) (i : Nat) (h : i < names.length) :
    labelForClass names (Int.ofNat i) = names.getD i "" := by
  rw [labelForClass, dif_pos ⟨Int.ofNat_nonneg i, by simpa [Int.toNat_ofNat] using h⟩]
  simp [List.getD_eq_getElem?_getD, List.getElem?_eq_getElem, Int.toNat_ofNat, h]

/-- C8 amended: a supplied class-name file's non-empty lines are appended
after the built-in 80-class table, so index lookup below 80 still resolves
to the built-in labels and the file's labels occupy indices 80 onwards;
with no file the built-in table is used. -/
theorem C8_amended_label_file_appends (lines : List String)
    (h : ∀ l ∈ lines, l.isEmpty = false) :
    constructClassNames none = coco80
    ∧ constructClassNames (some lines) = coco80 ++ lines
    ∧ (∀ i, i < coco80.length →
        labelForClass (constructClassNames (some lines)) (Int.ofNat i) =
          labelForClass coco80 (Int.ofNat i))
    ∧ (∀ j, j < lines.length →
        labelForClass (constructClassNames (some lines)) (Int.ofNat (coco80.length + j)) =
          lines.getD j "") := by
  have hfilter : lines.filter (fun l => !l.isEmpty) = lines := by
    rw [List.filter_eq_self]
    intro a ha
    simp [h a ha]
  have happend : constructClassNames (some lines) = coco80 ++ lines := by
    rw [constructClassNames, load_class_names, hfilter]
  refine ⟨rfl, happend, ?_, ?_⟩
  · intro i hi
    rw [happend, labelForClass_ofNat _ i (by simp; omega),
      labelForClass_ofNat _ i hi, List.getD_append _ _ _ _ hi]
  · intro j hj
    rw [happend, labelForClass_ofNat _ _ (by simp [hj])]
    rw [List.getD_eq_getElem?_getD, List.getElem?_append_right (by omega)]
    simp [List.getD_eq_getElem?_getD]

/-- Witness for C8 amended, with the one-line file `["weapon"]`: no file
gives the built-in table, and the file's line sits at index 80. -/
theorem C8_amended_label_file_appends_witness :
    (∀ l ∈ ["weapon"], l.isEmpty = false)
    ∧ constructClassNames none = coco80
    ∧ labelForClass (constructClassNames (some ["weapon"])) (Int.ofNat (coco80.length + 0)) =
        ["weapon"].getD 0 "" :=
  ⟨by decide,
   (C8_amended_label_file_appends ["weapon"] (by decide)).1,
   (C8_amended_label_file_appends ["weapon"] (by decide)).2.2.2 0 (by decide)⟩

/-- C6 counterexample: constructing with `use_onnxruntime = false` while the
OpenCV-DNN load fails and the ONNX Runtime load would succeed
(`ort_load_ok = true`, so that backend did not fail) leaves
`ready() = false` even though not both backends failed — refuting "ready()
is false only when both backends fail to load" at this concrete input. -/
theorem C6_counterexample_no_reverse_fallback :
    (construct false true false 640 0 none).ready = false
    ∧ (true : Bool) ≠ false := by
  exact ⟨by decide, by decide⟩

/-- C6 amended: construction never throws (both loads are guarded); when
ONNX Runtime is requested, a failed ORT load falls back to OpenCV DNN and
`ready()` is false exactly when both loads fail; when ONNX Runtime is not
requested, only the OpenCV backend is attempted and `ready()` mirrors that
single load; `run()` on a not-ready engine returns its input unchanged. -/
theorem C6_amended_fallback_and_echo :
    (∀ ort cv sz thr fl, ((construct true ort cv sz thr fl).ready = false ↔
        (ort = false ∧ cv = false)))
    ∧ (∀ ort cv sz thr fl, (construct false ort cv sz thr fl).ready = cv)
    ∧ (∀ e pred input, e.ready = false → runEngine e pred input = input) := by
  refine ⟨?_, ?_, ?_⟩
  · intro ort cv sz thr fl
    cases ort <;> cases cv <;> simp [construct]
  · intro ort cv sz thr fl
    cases cv <;> simp [construct]
  · intro e pred input h
    rw [runEngine, if_pos (Or.inl h)]

/-- Witness for C6 amended: a concrete engine with both loads failed echoes
a concrete input frame. -/
theorem C6_amended_fallback_and_echo_witness :
    (construct true false false 640 0 none).ready = false
    ∧ runEngine (construct true false false 640 0 none) ⟨[1, 6], [0, 0, 0, 0, 1, 1]⟩
        ⟨⟨2, 2, [0, 0, 0, 0]⟩, [], DangerLevel.LOW, 0⟩ =
      ⟨⟨2, 2, [0, 0, 0, 0]⟩, [], DangerLevel.LOW, 0⟩ :=
  ⟨by decide,
   C6_amended_fallback_and_echo.2.2 (construct true false false 640 0 none)
     ⟨[1, 6], [0, 0, 0, 0, 1, 1]⟩
     ⟨⟨2, 2, [0, 0, 0, 0]⟩, [], DangerLevel.LOW, 0⟩ (by decide)⟩

/-- Comma-prefixed join: each element preceded by a comma. -/
def joinPre : List String → String
  | [] => ""
  | x :: xs => "," ++ x ++ joinPre xs

lemma joinComma_cons_eq (x : String) (xs : List String) :
    joinComma (x :: xs) = x ++ joinPre xs := by
  induction xs generalizing x with
  | nil => simp [joinComma, joinPre]
  | cons y ys ih =>
    rw [joinComma, ih y, joinPre]
    simp [String.append_assoc]

lemma labelsLoopAux_false (dets : List Detection) : ∀ acc,
    labelsLoopAux dets false acc = acc ++ joinPre (highLabelsOf dets) := by
  induction dets with
  | nil => intro acc; simp [labelsLoopAux, highLabelsOf, joinPre]
  | cons d rest ih =>
    intro acc
    by_cases hH : d.level = DangerLevel.HIGH
    · rw [labelsLoopAux, if_neg (by simp [hH]), ih]
      simp [highLabelsOf, List.filter_cons, hH, joinPre, String.append_assoc]
      rw [show (",\"" : String) = "," ++ "\"" from rfl, String.append_assoc]
    · rw [labelsLoopAux, if_pos (by simp [hH]), ih]
      simp [highLabelsOf, List.filter_cons, hH]

lemma labelsLoopAux_true (dets : List Detection) : ∀ acc,
    labelsLoopAux dets true acc = acc ++ joinComma (highLabelsOf dets) := by
  induction dets with
  | nil => intro acc; simp [labelsLoopAux, highLabelsOf, joinComma]
  | cons d rest ih =>
    intro acc
    by_cases hH : d.level = DangerLevel.HIGH
    · rw [labelsLoopAux, if_neg (by simp [hH]), labelsLoopAux_false]
      simp [highLabelsOf, List.filter_cons, hH, joinComma_cons_eq, String.append_assoc]
    · rw [labelsLoopAux, if_pos (by simp [hH]), ih]
      simp [highLabelsOf, List.filter_cons, hH]

/-- C2: feeding results to the publisher appends exactly one JSONL record
per HIGH-level result — type tag, fixed 3-decimal timestamp, and precisely
the labels of that frame's HIGH-level detections — and appends nothing for
LOW or MEDIUM results. -/
theorem C2_publish_only_high :
    (∀ r, publishLine r =
        if r.frame_level = DangerLevel.HIGH then some (specAlertLine r) else none)
    ∧ ∀ rs, publishAll rs =
        (rs.filter (fun r => r.frame_level = DangerLevel.HIGH)).map specAlertLine := by
  have hline : ∀ r, publishLine r =
      if r.frame_level = DangerLevel.HIGH then some (specAlertLine r) else none := by
    intro r
    by_cases hH : r.frame_level = DangerLevel.HIGH
    · rw [publishLine, if_neg (by simp [hH]), if_pos hH, specAlertLine,
        labelsLoopAux_true, String.empty_append]
    · rw [publishLine, if_pos (by simp [hH]), if_neg hH]
  refine ⟨hline, ?_⟩
  intro rs
  induction rs with
  | nil => rfl
  | cons r rs ih =>
    rw [publishAll, List.filterMap_cons, hline r]
    by_cases hH : r.frame_level = DangerLevel.HIGH
    · simp [List.filter_cons, hH, ← ih, publishAll]
    · simp [List.filter_cons, hH, ← ih, publishAll]

lemma drainAll_stopped {T : Type} (q : List T) :
    drainAll q.length (⟨q, true⟩ : BufferState T) = (q, (⟨[], true⟩ : BufferState T)) := by
  induction q with
  | nil => rfl
  | cons x rest ih =>
    rw [List.length_cons, drainAll]
    simp [popStep, ih]

/-- C3 (code bug in the claim's subject): `push`'s wait predicate is
`queue_.size() < max_items_` alone and never consults `stopped_`, so calling
`stop()` does not change whether a push can complete — in particular a push
blocked on a full stopped queue stays blocked (here: remains `none`) instead
of returning as the spec's contract requires. -/
theorem C3_push_wait_ignores_stop :
    (∀ (cap : Nat) (s : BufferState Nat) (x : Nat),
        (pushStep cap (stopStep s) x).isSome = (pushStep cap s x).isSome)
    ∧ pushStep 4 (stopStep (⟨[0, 1, 2, 3], false⟩ : BufferState Nat)) 9 = none := by
  constructor
  · intro cap s x
    by_cases h : s.queue.length < cap <;> simp [pushStep, stopStep, h]
  · decide

lemma runBufOp_preserves {T : Type} (cap : Nat) (s : BufSys T) (op : BufOp T)
    (h1 : s.buf.queue.length ≤ cap)
    (h2 : s.pushedLog = s.poppedLog ++ s.buf.queue) :
    (runBufOp cap s op).buf.queue.length ≤ cap
    ∧ (runBufOp cap s op).pushedLog =
        (runBufOp cap s op).poppedLog ++ (runBufOp cap s op).buf.queue := by
  obtain ⟨⟨q, st⟩, pl, ql⟩ := s
  have h1' : q.length ≤ cap := h1
  have h2' : pl = ql ++ q := h2
  cases op with
  | push x =>
    by_cases hfull : q.length < cap
    · simp only [runBufOp, pushStep, hfull, if_true]
      refine ⟨?_, ?_⟩
      · show (q ++ [x]).length ≤ cap
        simp only [List.length_append, List.length_cons, List.length_nil]
        omega
      · show pl ++ [x] = ql ++ (q ++ [x])
        rw [h2', List.append_assoc]
    · simp only [runBufOp, pushStep, hfull, if_false]
      exact ⟨h1', h2'⟩
  | pop =>
    cases q with
    | nil =>
      cases st <;> exact ⟨h1', h2'⟩
    | cons y rest =>
      simp only [runBufOp, popStep]
      refine ⟨?_, ?_⟩
      · show rest.length ≤ cap
        simp only [List.length_cons] at h1'
        omega
      · show pl = (ql ++ [y]) ++ rest
        rw [h2', List.append_assoc, List.singleton_append]
  | halt =>
    exact ⟨h1', h2'⟩

lemma runBufOps_preserves {T : Type} (cap : Nat) (ops : List (BufOp T)) :
    ∀ s : BufSys T, s.buf.queue.length ≤ cap →
      s.pushedLog = s.poppedLog ++ s.buf.queue →
      (runBufOps cap s ops).buf.queue.length ≤ cap
      ∧ (runBufOps cap s ops).pushedLog =
          (runBufOps cap s ops).poppedLog ++ (runBufOps cap s ops).buf.queue := by
  induction ops with
  | nil => intro s h1 h2; exact ⟨h1, h2⟩
  | cons op rest ih =>
    intro s h1 h2
    have hstep := runBufOp_preserves cap s op h1 h2
    simpa [runBufOps, List.foldl_cons] using ih (runBufOp cap s op) hstep.1 hstep.2

/-- C4: under any interleaving of completed pushes, pops and stops, the
queue of a capacity-`cap` buffer never holds more than `cap` items, and the
sequence of items delivered by pop followed by the items still queued is
exactly the sequence of items pushed, in order (FIFO, no reordering, no
duplication, no invention). -/
theorem C4_bound_and_fifo (T : Type) (cap : Nat) (ops : List (BufOp T)) :
    (runBufOps cap (initSys T) ops).buf.queue.length ≤ cap
    ∧ (runBufOps cap (initSys T) ops).pushedLog =
        (runBufOps cap (initSys T) ops).poppedLog ++ (runBufOps cap (initSys T) ops).buf.queue :=
  runBufOps_preserves cap ops (initSys T) (by simp [initSys, initBuffer]) (by simp [initSys, initBuffer])

/-- C5: once stopped, pop drains the buffered items one by one in FIFO order
(each delivered with ok = true), ends in the empty stopped state whose next
pop returns ok = false, and a pop can only ever deliver the genuine front of
the queue. -/
theorem C5_drain_then_stop (T : Type) (s : BufferState T) (h : s.stopped = true) :
    drainAll s.queue.length s = (s.queue, (⟨[], true⟩ : BufferState T))
    ∧ popStep (⟨[], true⟩ : BufferState T) = some (⟨[], true⟩, none)
    ∧ (∀ (s' : BufferState T) b x, popStep s' = some (b, some x) → s'.queue = x :: b.queue) := by
  refine ⟨?_, rfl, ?_⟩
  · obtain ⟨q, st⟩ := s
    subst h
    exact drainAll_stopped q
  · intro s' b x hp
    obtain ⟨q, st⟩ := s'
    cases q with
    | nil => cases st <;> simp [popStep] at hp
    | cons y rest =>
      simp only [popStep, Option.some.injEq, Prod.mk.injEq] at hp
      obtain ⟨hb, hx⟩ := hp
      subst hb
      simp_all

/-- Witness for C5 on a stopped buffer holding `[5, 7]`. -/
theorem C5_drain_then_stop_witness :
    (⟨[5, 7], true⟩ : BufferState Nat).stopped = true
    ∧ drainAll (⟨[5, 7], true⟩ : BufferState Nat).queue.length (⟨[5, 7], true⟩ : BufferState Nat) =
        ([5, 7], (⟨[], true⟩ : BufferState Nat)) :=
  ⟨rfl, (C5_drain_then_stop Nat ⟨[5, 7], true⟩ rfl).1⟩

/-- C10: pushing into a stopped buffer that is below capacity still
enqueues the item (the wait predicate and the enqueue consult only the
size), and draining the resulting queue delivers every buffered item —
including the late one — with ok = true before any not-ok pop. -/
theorem C10_push_after_stop_enqueues (T : Type) (cap : Nat) (s : BufferState T) (x : T)
    (hstop : s.stopped = true) (hroom : s.queue.length < cap) :
    pushStep cap s x = some ⟨s.queue ++ [x], true⟩
    ∧ (drainAll (s.queue ++ [x]).length (⟨s.queue ++ [x], true⟩ : BufferState T)).1 =
        s.queue ++ [x] := by
  constructor
  · rw [pushStep, if_pos hroom, hstop]
  · rw [drainAll_stopped]

/-- Witness for C10: a stopped capacity-4 buffer holding `[1, 2]` accepts a
late push of `3` and drains `[1, 2, 3]`. -/
theorem C10_push_after_stop_enqueues_witness :
    (⟨[1, 2], true⟩ : BufferState Nat).stopped = true
    ∧ (⟨[1, 2], true⟩ : BufferState Nat).queue.length < 4
    ∧ pushStep 4 (⟨[1, 2], true⟩ : BufferState Nat) 3 = some ⟨[1, 2] ++ [3], true⟩ :=
  ⟨rfl, by decide,
   (C10_push_after_stop_enqueues Nat 4 ⟨[1, 2], true⟩ 3 rfl (by decide)).1⟩

lemma listMax_append (l₁ l₂ : List ℚ) :
    listMax (l₁ ++ l₂) = max (listMax l₁) (listMax l₂) := by
  induction l₁ with
  | nil =>
    rw [List.nil_append, show listMax [] = 0 from rfl]
    exact (max_eq_right (listMax_nonneg l₂)).symm
  | cons x l ih => rw [List.cons_append, listMax_cons, ih, listMax_cons, max_assoc]

lemma audio_fold_eq (aflags : List Sig) : ∀ a : ℚ,
    aflags.foldl (fun r f => if f.name = "raised_voice" then max r ((3/4 : ℚ) * f.conf) else r) a
      = List.foldl max a
          ((aflags.filter (fun f => f.name = "raised_voice")).map (fun f => (3/4 : ℚ) * f.conf)) := by
  induction aflags with
  | nil => intro a; rfl
  | cons f rest ih =>
    intro a
    by_cases hf : f.name = "raised_voice"
    · simp only [List.foldl_cons, hf, if_true, List.filter_cons]
      simp [hf, ih]
    · simp only [List.foldl_cons, hf, if_false, List.filter_cons]
      simp [hf, ih]

lemma fuse_risk_eq (objs acts : List Sig) (zones : List String) (aflags : List Sig) :
    fuse_risk objs acts zones aflags = min (listMax (contribList objs acts zones aflags)) 1 := by
  rw [fuse_risk, contribList]
  rw [show (List.foldl (fun r o => max r (o.conf * (7/10))) (0:ℚ) objs)
      = List.foldl max 0 (objs.map (fun o => o.conf * (7/10))) from (List.foldl_map _ _ _ _).symm,
    show (fun r (a : Sig) => max r (a.conf * (4/5))) = fun r a => max r ((fun a : Sig => a.conf * (4/5)) a) from rfl,
    ← List.foldl_map (fun a : Sig => a.conf * (4/5)) max,
    foldl_max_eq _ 0 le_rfl, max_eq_right (listMax_nonneg _),
    audio_fold_eq,
    foldl_max_eq _ _ (listMax_nonneg _),
    foldl_max_eq _ _ (le_max_of_le_left (listMax_nonneg _))]
  rw [listMax_append, listMax_append, listMax_append]
  cases hz : zones.isEmpty
  · rw [if_neg (by simp), if_neg (by simp)]
    have h12 : listMax [(1/2 : ℚ)] = (1/2 : ℚ) := by
      rw [show listMax [(1/2 : ℚ)] = max (1/2 : ℚ) 0 from rfl]
      exact max_eq_left (by norm_num)
    rw [h12]
  · rw [if_pos rfl, if_pos rfl, show listMax ([] : List ℚ) = 0 from rfl,
      max_eq_left (le_max_of_le_left (le_max_of_le_left (listMax_nonneg _)))]

/-- C9: `risk_local` is the clamped (at 1) maximum of the weighted
per-signal contributions — objects × 0.7, actions × 0.8, `raised_voice`
audio × 0.75, and a 0.5 floor when the zone list is non-empty (the maximum
taken with the fold's base 0, matching the nonnegative-confidence data
model) — and `level_local` follows the threshold chain
`risk_high` / `risk_medium` / 0.05 / none, stated here for every event the
post-processor builds. -/
theorem C9_risk_fusion (objs acts : List Sig) (zonesL : List String) (aflags : List Sig)
    (site cam : String) (zones : List String) (fid : Nat) (rm rh : ℚ)
    (ev : FrameEvent) (hev : ev = process_frame site cam zones fid rm rh) :
    fuse_risk objs acts zonesL aflags = min (listMax (contribList objs acts zonesL aflags)) 1
    ∧ ev.risk_local = fuse_risk ev.objects ev.actions ev.zones ev.audio_flags
    ∧ (ev.level_local = "high" ↔ rh ≤ ev.risk_local)
    ∧ (ev.level_local = "medium" ↔ (ev.risk_local < rh ∧ rm ≤ ev.risk_local))
    ∧ (ev.level_local = "low" ↔
        (ev.risk_local < rh ∧ ev.risk_local < rm ∧ (1/20 : ℚ) ≤ ev.risk_local))
    ∧ (ev.level_local = "none" ↔
        (ev.risk_local < rh ∧ ev.risk_local < rm ∧ ev.risk_local < (1/20 : ℚ))) := by
  subst hev
  simp only [process_frame]
  refine ⟨fuse_risk_eq _ _ _ _, by trivial, ?_, ?_, ?_, ?_⟩ <;>
    split_ifs with h1 h2 h3 <;> simp_all [not_le]

/-- Witness for C9 at the spec's example policy: one active zone,
`risk_medium = 3/5`, `risk_high = 9/10`. -/
theorem C9_risk_fusion_witness :
    process_frame "site" "cam" ["loading_dock"] 0 (3/5) (9/10) =
      process_frame "site" "cam" ["loading_dock"] 0 (3/5) (9/10)
    ∧ ((process_frame "site" "cam" ["loading_dock"] 0 (3/5) (9/10)).level_local = "high" ↔
        (9/10 : ℚ) ≤ (process_frame "site" "cam" ["loading_dock"] 0 (3/5) (9/10)).risk_local) :=
  ⟨rfl,
   (C9_risk_fusion [] [] [] [] "site" "cam" ["loading_dock"] 0 (3/5) (9/10)
     (process_frame "site" "cam" ["loading_dock"] 0 (3/5) (9/10)) rfl).2.2.1⟩
